import Mathlib

/-!
Shallow embedding of `conversion/scrape_profiles.py`: the Extractor
(`extract_badges_from_html` and its helpers `is_negative_phrase`,
`is_arcade_game`), the Fetcher (`fetch_profile`), the Reconciler (the
per-record update logic of `main`, lines 267-298 and 341-366), and the
write-back decision of `main` (lines 376-379).

Python string/regex primitives are modelled explicitly:
  * `pyLower` models `str.lower` (ASCII, the only characters that occur),
  * `containsSub` models the substring test `needle in hay`,
  * `collapseWs`/`pyStrip` model `re.sub(r"\s+", " ", s)` and `str.strip()`,
  * `scanLevel`/`levelNumHere` model `re.search(r"\blevel\s*\d+\b", s)`,
  * `scanTagged` models `re.finditer` for the two literal-tag patterns
    `([A-Za-z0-9\-:,() '&]+\[Skill Badge\])` and `...\[Game\])`,
  * `pyIntOfStr` models CPython `int(str)` on plain decimal literals
    (optional surrounding whitespace and sign; other shapes raise, which
    is modelled as `none`).

The BeautifulSoup DOM queries are modelled by the `HtmlDoc` structure: its
fields hold exactly the query results the Python code iterates over
(`soup.select('.profile-badges .profile-badge')` block titles, the
descendant elements of class-pattern-matched containers, all anchors with
an `href`, and the raw page text used by the regex fallback).
-/

namespace ScrapeProfiles

/-- Python whitespace class `\s` (and the characters removed by `str.strip()`). -/
def isSpaceChar (c : Char) : Bool :=
  c = ' ' || c = '\t' || c = '\n' || c = '\r' || c = '\x0b' || c = '\x0c'

/-- Regex word character `\w` (ASCII: letters, digits, underscore). -/
def isWordChar (c : Char) : Bool :=
  c.isAlphanum || c = '_'

/-- `str.lower()` (ASCII). -/
def pyLower (s : String) : String :=
  String.mk (s.toList.map Char.toLower)

/-- Does `hay` start with `needle`? (helper for the substring test). -/
def leadsWith : List Char → List Char → Bool
  | [], _ => true
  | _ :: _, [] => false
  | a :: as, b :: bs => (a = b) && leadsWith as bs

/-- Substring test: Python `needle in hay` for strings. -/
def containsSub (hay needle : List Char) : Bool :=
  match hay with
  | [] => leadsWith needle []
  | _ :: rest => leadsWith needle hay || containsSub rest needle

/-- String-level substring test `needle in hay`. -/
def strContains (hay needle : String) : Bool :=
  containsSub hay.toList needle.toList

/-- `re.sub(r"\s+", " ", s)`: collapse every whitespace run to one space.
The flag records whether the previous character was whitespace. -/
def collapseWsAux : Bool → List Char → List Char
  | _, [] => []
  | prevSpace, c :: rest =>
    if isSpaceChar c then
      if prevSpace then collapseWsAux true rest
      else ' ' :: collapseWsAux true rest
    else c :: collapseWsAux false rest

def collapseWs (l : List Char) : List Char :=
  collapseWsAux false l

/-- `str.strip()`: drop leading and trailing whitespace. -/
def pyStrip (l : List Char) : List Char :=
  ((l.dropWhile isSpaceChar).reverse.dropWhile isSpaceChar).reverse

def pyStripStr (s : String) : String :=
  String.mk (pyStrip s.toList)

/-- `re.sub(r"\s+", " ", title).strip()` — scrape_profiles.py line 91/127/148. -/
def normTitle (s : String) : String :=
  String.mk (pyStrip (collapseWs s.toList))

/-- CPython `int(s)` for a plain decimal digit run. -/
def natOfDigits (cs : List Char) : Option Nat :=
  match cs with
  | [] => none
  | _ =>
    if cs.all Char.isDigit then
      some (cs.foldl (fun a c => a * 10 + (c.toNat - 48)) 0)
    else none

/-- CPython `int(s)`: strip whitespace, optional sign, decimal digits.
Shapes CPython rejects with `ValueError` are `none`.  (Underscore digit
separators, accepted by CPython, do not occur in the data and are not
modelled.) -/
def pyIntOfStr (s : String) : Option Int :=
  match pyStrip s.toList with
  | '+' :: rest => (natOfDigits rest).map fun n => (n : Int)
  | '-' :: rest => (natOfDigits rest).map fun n => -(n : Int)
  | rest => (natOfDigits rest).map fun n => (n : Int)

/-- The token `level` searched by `is_arcade_game`'s regex. -/
def levelTok : List Char := ['l', 'e', 'v', 'e', 'l']

/-- Does `\blevel\s*\d+\b` match at the head of `cs` (the leading word
boundary is checked by the caller)?  Because `\s`, `\d` and the boundary
classes are disjoint, the regex backtracking collapses to maximal-munch:
take the maximal space run, require a digit, take the maximal digit run,
require a non-word character or the end. -/
def levelNumHere (cs : List Char) : Bool :=
  leadsWith levelTok cs &&
    (match (cs.drop 5).dropWhile isSpaceChar with
     | [] => false
     | d :: rest2 =>
       d.isDigit &&
         (match (d :: rest2).dropWhile Char.isDigit with
          | [] => true
          | c :: _ => !isWordChar c))

/-- `re.search(r"\blevel\s*\d+\b", cs)`: try every position; `atB` says
whether a word boundary precedes the current position. -/
def scanLevel : Bool → List Char → Bool
  | _, [] => false
  | atB, c :: rest => (atB && levelNumHere (c :: rest)) || scanLevel (!isWordChar c) rest

/-- scrape_profiles.py lines 52-62: a title is an arcade game iff its
lowercasing matches `\blevel\s*\d+\b`. -/
def is_arcade_game (title : String) : Bool :=
  scanLevel true (pyLower title).toList

/-- scrape_profiles.py lines 47-49. -/
def is_negative_phrase (s : String) : Bool :=
  let s2 := pyLower s
  strContains s2 "hasn\x27t earned" || strContains s2 "has not earned" ||
    strContains s2 "no badges" || strContains s2 "no skill badges"

/-- The character class `[A-Za-z0-9\-:,() '&]` of the literal-tag regexes. -/
def inTagClass (c : Char) : Bool :=
  c.isAlphanum || c = '-' || c = ':' || c = ',' || c = '(' || c = ')' ||
    c = ' ' || c = '\x27' || c = '&'

/-- Single pass of `re.finditer(r"([class]+\[TAG\])", text)`.  Neither
`[` nor `]` is in the class, so a match is exactly a maximal
class-character run followed immediately by the literal `tag`, and
scanning resumes after the tag.  `run` accumulates the current
class-character run; `skip` counts tag characters still to be consumed
after an emitted match. -/
def scanTaggedAux (tag : List Char) : List Char → Nat → List Char → List (List Char)
  | _, _, [] => []
  | run, skip + 1, _ :: rest => scanTaggedAux tag run skip rest
  | run, 0, c :: rest =>
    if inTagClass c then scanTaggedAux tag (run ++ [c]) 0 rest
    else if run ≠ [] ∧ leadsWith tag (c :: rest) = true then
      (run ++ tag) :: scanTaggedAux tag [] (tag.length - 1) rest
    else scanTaggedAux tag [] 0 rest

def scanTagged (tag : List Char) (text : List Char) : List (List Char) :=
  scanTaggedAux tag [] 0 text

/-- An element visited by the container-pattern scan (lines 117-137):
its tag name, its `get_text(separator=' ', strip=True)`, and its `href`
attribute (empty when absent). -/
structure BElem where
  name : String
  text : String
  href : String
deriving DecidableEq

/-- A hyperlink visited by the global link scan (lines 140-158). -/
structure Anchor where
  text : String
  href : String
deriving DecidableEq

/-- The DOM query results `extract_badges_from_html` iterates over:
the title text of each `.profile-badges .profile-badge` block (empty
string when the block has no title element), the descendant elements of
each class-pattern-matched container (one inner list per matched
container, containers repeated when several patterns match), every
anchor carrying an `href`, and the raw page text. -/
structure HtmlDoc where
  blockTitles : List String
  containers : List (List BElem)
  anchors : List Anchor
  rawText : String
deriving DecidableEq

structure ExtractResult where
  badges : List String
  arcade_games : List String
deriving DecidableEq

/-- One iteration of the structured block scan (lines 74-105).  Note:
no negative-phrase filter here. -/
def blockStep (st : ExtractResult) (title : String) : ExtractResult :=
  if title ≠ "" then
    let bnorm := normTitle title
    if is_arcade_game bnorm then
      let g := bnorm ++ " [Game]"
      if g ∈ st.arcade_games then st
      else { st with arcade_games := st.arcade_games ++ [g] }
    else
      let b := bnorm ++ " [Skill Badge]"
      if b ∈ st.badges then st
      else { st with badges := st.badges ++ [b] }
  else st

/-- The structured block scan over all blocks (strategy 1). -/
def blockScan (titles : List String) : ExtractResult :=
  titles.foldl blockStep ⟨[], []⟩

/-- One iteration of the container-pattern scan (lines 117-137). -/
def containerStep (st : ExtractResult) (el : BElem) : ExtractResult :=
  let txt := el.text
  if txt = "" then st
  else if is_negative_phrase txt then st
  else
    let href := if el.name = "a" then el.href else ""
    if strContains txt "[Skill Badge]" || strContains (pyLower txt) "skill badge" ||
        strContains href "/badges" || strContains href "/quests" ||
        strContains href "/skill" then
      let bnorm := normTitle txt
      if is_arcade_game bnorm then
        let g := if strContains bnorm "[Game]" then bnorm else bnorm ++ " [Game]"
        if g ∈ st.arcade_games then st
        else { st with arcade_games := st.arcade_games ++ [g] }
      else
        if bnorm ≠ "" ∧ bnorm ∉ st.badges then
          { st with badges := st.badges ++ [bnorm] }
        else st
    else st

/-- One iteration of the global link scan (lines 140-158). -/
def anchorStep (st : ExtractResult) (a : Anchor) : ExtractResult :=
  if a.text = "" then st
  else if is_negative_phrase a.text then st
  else if strContains a.href "/badges" || strContains (pyLower a.href) "badge" ||
      strContains a.href "/quests" then
    let bnorm := normTitle a.text
    if is_arcade_game bnorm then
      let g := if strContains bnorm "[Game]" then bnorm else bnorm ++ " [Game]"
      if g ∈ st.arcade_games then st
      else { st with arcade_games := st.arcade_games ++ [g] }
    else
      if bnorm ≠ "" ∧ bnorm ∉ st.badges then
        { st with badges := st.badges ++ [bnorm] }
      else st
  else st

/-- One iteration of the `[Skill Badge]` literal-tag regex fallback
(lines 161-167); `m` is the full regex match, `strip()`ped before use. -/
def regexBadgeStep (st : ExtractResult) (m : String) : ExtractResult :=
  let b := pyStripStr m
  if is_negative_phrase b then st
  else if b ∈ st.badges then st
  else { st with badges := st.badges ++ [b] }

/-- One iteration of the `[Game]` literal-tag regex fallback (lines 170-176). -/
def regexGameStep (st : ExtractResult) (m : String) : ExtractResult :=
  let g := pyStripStr m
  if is_negative_phrase g then st
  else if g ∈ st.arcade_games then st
  else { st with arcade_games := st.arcade_games ++ [g] }

def skillTagChars : List Char := "[Skill Badge]".toList
def gameTagChars : List Char := "[Game]".toList

/-- scrape_profiles.py lines 41-178.  Strategy 1 (structured blocks) is
authoritative when non-empty (lines 107-109); otherwise the three
fallback strategies accumulate into the same lists. -/
def extract_badges_from_html (doc : HtmlDoc) : ExtractResult :=
  let st1 := blockScan doc.blockTitles
  if st1.badges ≠ [] ∨ st1.arcade_games ≠ [] then st1
  else
    let st2 := doc.containers.foldl (fun s els => els.foldl containerStep s) st1
    let st3 := doc.anchors.foldl anchorStep st2
    let st4 := ((scanTagged skillTagChars doc.rawText.toList).map
        (fun m => String.mk m)).foldl regexBadgeStep st3
    ((scanTagged gameTagChars doc.rawText.toList).map
        (fun m => String.mk m)).foldl regexGameStep st4

/-- A JSON scalar as stored in a record field (the count fields of
`data.json` hold integers, strings or null). -/
inductive FieldVal where
  | vnull : FieldVal
  | vint : Int → FieldVal
  | vstr : String → FieldVal
deriving DecidableEq

/-- Python truthiness of a field value. -/
def pyTruthy : FieldVal → Bool
  | .vnull => false
  | .vint n => n != 0
  | .vstr s => s != ""

/-- A record of `data.json`, restricted to the fields `main` touches.
`none` means the key is absent from the record.  Key correspondence:
`skillBadgeCount` = '# of Skill Badges Completed', `skillBadgeNames` =
'Names of Completed Skill Badges', `arcadeGameCount` = '# of Arcade
Games Completed', `arcadeGameNames` = 'Names of Completed Arcade Games',
`totalCourseCount` = '# of Courses Completed', `allCompletedFlag` =
'All Skill Badges & Games Completed', `pathwaysFlag` =
'All 3 Pathways Completed - Yes or No', `arcadeShortFlag` =
'Gen AI Arcade Game Completion'. -/
structure ProfileRecord where
  skillBadgeCount : Option FieldVal
  skillBadgeNames : Option FieldVal
  arcadeGameCount : Option FieldVal
  arcadeGameNames : Option FieldVal
  totalCourseCount : Option FieldVal
  allCompletedFlag : Option FieldVal
  pathwaysFlag : Option FieldVal
  arcadeShortFlag : Option FieldVal
deriving DecidableEq

/-- `int(matched.get(key) or 0)` — lines 267-268 and 341-342.  `none`
as a result models the `ValueError` CPython raises on a truthy
non-numeric string. -/
def pyGetCount (v : Option FieldVal) : Option Int :=
  match v with
  | none => some 0
  | some fv =>
    if pyTruthy fv then
      match fv with
      | .vnull => some 0
      | .vint n => some n
      | .vstr s => pyIntOfStr s
    else some 0

/-- A count field that Python's `or 0` replaces by `0`: absent, null,
`0`, or the empty string. -/
def isFalsyCount (v : Option FieldVal) : Bool :=
  match v with
  | none => true
  | some fv => !pyTruthy fv

/-- `' | '.join(names)` — lines 278/282. -/
def joinPipe (names : List String) : String :=
  String.intercalate " | " names

/-- The full-field update of lines 277-296 (identical in the retry loop,
lines 350-364): overwrite both counts and both name lists, recompute
the total, recompute the completion flags — 'All Skill Badges & Games
Completed' and 'Gen AI Arcade Game Completion' only when the key already
exists, 'All 3 Pathways Completed - Yes or No' unconditionally. -/
def applyUpdate (r : ProfileRecord) (badges arcade_games : List String) : ProfileRecord :=
  let nb : Int := badges.length
  let na : Int := arcade_games.length
  let completionMet : Bool := decide (nb ≥ 19) && decide (na ≥ 1)
  { r with
    skillBadgeCount := some (.vint nb)
    skillBadgeNames := some (.vstr (joinPipe badges))
    arcadeGameCount := some (.vint na)
    arcadeGameNames := some (.vstr (joinPipe arcade_games))
    totalCourseCount := some (.vint (nb + na))
    allCompletedFlag :=
      if r.allCompletedFlag.isSome then
        some (.vstr (if completionMet then "Yes" else "No"))
      else r.allCompletedFlag
    pathwaysFlag := some (.vstr (if completionMet then "Yes" else "No"))
    arcadeShortFlag :=
      if r.arcadeShortFlag.isSome then
        some (.vstr (if na > 0 then "1" else "0"))
      else r.arcadeShortFlag }

/-- The Reconciler for one matched record (lines 267-298 / 341-366):
read the stored counts with `int(... or 0)`, then apply the full update
iff either fetched list is strictly longer than its stored count.
`none` models the crash when a stored count is a truthy non-numeric
string. -/
def reconcileRecord (r : ProfileRecord) (badges arcade_games : List String) :
    Option ProfileRecord :=
  match pyGetCount r.skillBadgeCount, pyGetCount r.arcadeGameCount with
  | some oldB, some oldA =>
    if (badges.length : Int) > oldB ∨ (arcade_games.length : Int) > oldA then
      some (applyUpdate r badges arcade_games)
    else some r
  | _, _ => none

/-- All reconciliations one record undergoes during a run, in order;
each list element is one error-free fetch outcome's `(badges,
arcade_games)` pair. -/
def runReconciliations (r : ProfileRecord)
    (outcomes : List (List String × List String)) : Option ProfileRecord :=
  outcomes.foldl (fun acc o => acc.bind fun rec => reconcileRecord rec o.1 o.2) (some r)

/-- What the network did for one request: `requests.get` raised
(transport error / timeout), or returned a response with a status code
and a body (given as its DOM-query view plus raw text). -/
inductive NetResult where
  | exn : String → NetResult
  | resp : Nat → HtmlDoc → NetResult

structure FetchOutcome where
  url : String
  error : Option String
  badges : List String
  arcade_games : List String
deriving DecidableEq

/-- `r.raise_for_status()` raises exactly for 4xx and 5xx codes. -/
def statusRaises (status : Nat) : Bool :=
  400 ≤ status && status < 600

/-- scrape_profiles.py lines 181-192: any exception from the request or
from `raise_for_status` is captured into `error` with both lists empty;
otherwise the body goes to the extractor. -/
def fetch_profile (url : String) (net : NetResult) : FetchOutcome :=
  match net with
  | .exn msg => ⟨url, some msg, [], []⟩
  | .resp status body =>
    if statusRaises status then
      ⟨url, some ("HTTPError " ++ toString status), [], []⟩
    else
      let result := extract_badges_from_html body
      ⟨url, none, result.badges, result.arcade_games⟩

/-- Lines 376-379: `if not args.dry_run and updated > 0:` write the
output file (a single `json.dump` call).  Value: how many times the
output file is written during the run. -/
def writesPerformed (dryRun : Bool) (updated : Nat) : Nat :=
  if !dryRun && decide (0 < updated) then 1 else 0

/-! ## Helper lemmas -/

theorem pyGetCount_vint (n : Int) : pyGetCount (some (.vint n)) = some n := by
  by_cases h : n = 0 <;> simp [pyGetCount, pyTruthy, h]

theorem pyGetCount_falsy (v : Option FieldVal) (h : isFalsyCount v = true) :
    pyGetCount v = some 0 := by
  cases v with
  | none => rfl
  | some fv =>
    simp only [isFalsyCount, Bool.not_eq_true'] at h
    simp [pyGetCount, h]

/-! ## Concrete inputs used by witnesses and counterexamples -/

/-- A record storing 15 skill badges and 2 arcade games. -/
def storedProgress : ProfileRecord :=
  ⟨some (.vint 15), none, some (.vint 2), none, none, none, none, none⟩

def sixteenBadges : List String :=
  ["b1", "b2", "b3", "b4", "b5", "b6", "b7", "b8",
   "b9", "b10", "b11", "b12", "b13", "b14", "b15", "b16"]

/-- A record none of whose tracked keys is present. -/
def bareRecord : ProfileRecord :=
  ⟨none, none, none, none, none, none, none, none⟩

/-- A record whose skill-badge count is the (falsy) empty string while
its arcade-game count is 5. -/
def falsyCountRecord : ProfileRecord :=
  ⟨some (.vstr ""), none, some (.vint 5), none, none, none, none, none⟩

/-! ## Claims -/

/-- Claim C1, counterexample: starting from stored counts (15, 2), a
single reconciliation with an outcome of 16 badges and 1 arcade game
drops the stored arcade-game count from 2 to 1, so stored counts are not
monotonically non-decreasing across a run. -/
theorem c1_counterexample :
    (runReconciliations storedProgress [(sixteenBadges, ["g1"])]).map
        (fun r => r.arcadeGameCount) = some (some (.vint 1)) ∧
      storedProgress.arcadeGameCount = some (.vint 2) := by
  decide

/-- Claim C1 (amended): a reconciliation either leaves the record
unchanged or overwrites both stored counts with the outcome's list
lengths, of which at least one strictly exceeds its stored counterpart;
the other stored count may decrease. -/
theorem c1_monotonic_amended (r : ProfileRecord) (badges arcade_games : List String)
    (r' : ProfileRecord) (h : reconcileRecord r badges arcade_games = some r') :
    r' = r ∨
      ∃ oldB oldA, pyGetCount r.skillBadgeCount = some oldB ∧
        pyGetCount r.arcadeGameCount = some oldA ∧
        ((badges.length : Int) > oldB ∨ (arcade_games.length : Int) > oldA) ∧
        r'.skillBadgeCount = some (.vint badges.length) ∧
        r'.arcadeGameCount = some (.vint arcade_games.length) := by
  unfold reconcileRecord at h
  cases hB : pyGetCount r.skillBadgeCount with
  | none => rw [hB] at h; simp at h
  | some oldB =>
    cases hA : pyGetCount r.arcadeGameCount with
    | none => rw [hB, hA] at h; simp at h
    | some oldA =>
      rw [hB, hA] at h
      dsimp only at h
      by_cases htr : (badges.length : Int) > oldB ∨ (arcade_games.length : Int) > oldA
      · rw [if_pos htr] at h
        injection h with h
        exact Or.inr ⟨oldB, oldA, rfl, rfl, htr, by rw [← h]; rfl, by rw [← h]; rfl⟩
      · rw [if_neg htr] at h
        injection h with h
        exact Or.inl h.symm

theorem c1_witness :
    applyUpdate storedProgress sixteenBadges ["g1"] = storedProgress ∨
      ∃ oldB oldA, pyGetCount storedProgress.skillBadgeCount = some oldB ∧
        pyGetCount storedProgress.arcadeGameCount = some oldA ∧
        ((sixteenBadges.length : Int) > oldB ∨
          ((["g1"] : List String).length : Int) > oldA) ∧
        (applyUpdate storedProgress sixteenBadges ["g1"]).skillBadgeCount =
          some (.vint sixteenBadges.length) ∧
        (applyUpdate storedProgress sixteenBadges ["g1"]).arcadeGameCount =
          some (.vint (["g1"] : List String).length) :=
  c1_monotonic_amended storedProgress sixteenBadges ["g1"]
    (applyUpdate storedProgress sixteenBadges ["g1"]) (by decide)

/-- Claim C2: for a matched record with readable stored counts, the
Reconciler applies the full update iff a fetched list is strictly longer
than its stored count; the update overwrites both counts, both name
lists and the total (and does change the record), and otherwise the
record is returned unchanged. -/
theorem c2_reconcile_policy (r : ProfileRecord) (badges arcade_games : List String)
    (oldB oldA : Int)
    (hB : pyGetCount r.skillBadgeCount = some oldB)
    (hA : pyGetCount r.arcadeGameCount = some oldA) :
    (((badges.length : Int) > oldB ∨ (arcade_games.length : Int) > oldA) →
      reconcileRecord r badges arcade_games = some (applyUpdate r badges arcade_games) ∧
      applyUpdate r badges arcade_games ≠ r ∧
      (applyUpdate r badges arcade_games).skillBadgeCount = some (.vint badges.length) ∧
      (applyUpdate r badges arcade_games).skillBadgeNames =
        some (.vstr (joinPipe badges)) ∧
      (applyUpdate r badges arcade_games).arcadeGameCount =
        some (.vint arcade_games.length) ∧
      (applyUpdate r badges arcade_games).arcadeGameNames =
        some (.vstr (joinPipe arcade_games)) ∧
      (applyUpdate r badges arcade_games).totalCourseCount =
        some (.vint ((badges.length : Int) + arcade_games.length))) ∧
    (¬ ((badges.length : Int) > oldB ∨ (arcade_games.length : Int) > oldA) →
      reconcileRecord r badges arcade_games = some r) := by
  constructor
  · intro htr
    refine ⟨?_, ?_, rfl, rfl, rfl, rfl, rfl⟩
    · unfold reconcileRecord
      rw [hB, hA]
      dsimp only
      rw [if_pos htr]
    · intro heq
      rcases htr with h1 | h2
      · have hfield : r.skillBadgeCount = some (.vint (badges.length : Int)) := by
          rw [← heq]; rfl
        rw [hfield, pyGetCount_vint] at hB
        injection hB with hB
        omega
      · have hfield : r.arcadeGameCount = some (.vint (arcade_games.length : Int)) := by
          rw [← heq]; rfl
        rw [hfield, pyGetCount_vint] at hA
        injection hA with hA
        omega
  · intro htr
    unfold reconcileRecord
    rw [hB, hA]
    dsimp only
    rw [if_neg htr]

theorem c2_witness :
    reconcileRecord storedProgress sixteenBadges ["g1"] =
      some (applyUpdate storedProgress sixteenBadges ["g1"]) :=
  ((c2_reconcile_policy storedProgress sixteenBadges ["g1"] 15 2
    (by decide) (by decide)).1 (by decide)).1

/-- Claim C4, counterexample: a record that lacks the 'All 3 Pathways
Completed - Yes or No' key gains it when an update is applied, so it is
not true that both completion-flag fields are written only when already
present. -/
theorem c4_counterexample :
    (reconcileRecord bareRecord ["x"] []).map (fun r => r.pathwaysFlag) =
        some (some (.vstr "No")) ∧
      bareRecord.pathwaysFlag = none := by
  decide

/-- Claim C4 (amended): when the update is applied, the
'All Skill Badges & Games Completed' flag is written only if it already
existed, while the 'All 3 Pathways Completed - Yes or No' flag is always
written (created if absent); each written flag is "Yes" iff the new
skill-badge count is at least 19 and the new arcade-game count is at
least 1. -/
theorem c4_completion_flags_amended (r : ProfileRecord) (badges arcade_games : List String) :
    (applyUpdate r badges arcade_games).pathwaysFlag =
        some (.vstr (if (badges.length : Int) ≥ 19 ∧ (arcade_games.length : Int) ≥ 1
          then "Yes" else "No")) ∧
      (r.allCompletedFlag = none → (applyUpdate r badges arcade_games).allCompletedFlag = none) ∧
      (∀ fv, r.allCompletedFlag = some fv →
        (applyUpdate r badges arcade_games).allCompletedFlag =
          some (.vstr (if (badges.length : Int) ≥ 19 ∧ (arcade_games.length : Int) ≥ 1
            then "Yes" else "No"))) := by
  refine ⟨?_, ?_, ?_⟩
  · by_cases hm : (badges.length : Int) ≥ 19 ∧ (arcade_games.length : Int) ≥ 1 <;>
      simp [applyUpdate, hm]
  · intro h
    simp [applyUpdate, h]
  · intro fv h
    by_cases hm : (badges.length : Int) ≥ 19 ∧ (arcade_games.length : Int) ≥ 1 <;>
      simp [applyUpdate, h, hm]

theorem c4_witness : (applyUpdate bareRecord ["x"] []).allCompletedFlag = none :=
  (c4_completion_flags_amended bareRecord ["x"] []).2.1 rfl

/-- Claim C5: whenever the structured block scan (strategy 1) produces
any badge or arcade game, the extractor returns exactly its output and
no fallback strategy contributes. -/
theorem c5_block_scan_authoritative (doc : HtmlDoc)
    (h : (blockScan doc.blockTitles).badges ≠ [] ∨
      (blockScan doc.blockTitles).arcade_games ≠ []) :
    extract_badges_from_html doc = blockScan doc.blockTitles := by
  unfold extract_badges_from_html
  rw [if_pos h]

/-- One authoritative block plus confounding fallback-matchable markup. -/
def confoundDoc : HtmlDoc :=
  ⟨["Foo"], [[⟨"div", "some skill badge text", ""⟩]], [⟨"Bar", "/badges/1"⟩], ""⟩

theorem c5_witness : extract_badges_from_html confoundDoc = blockScan confoundDoc.blockTitles :=
  c5_block_scan_authoritative confoundDoc (Or.inl (by decide))

/-- Claim C8: the fetch operation's outcome always has empty badge and
arcade lists whenever its error field is set (transport errors and
non-success statuses are captured, never raised). -/
theorem c8_fetch_error_empty (url : String) (net : NetResult)
    (h : (fetch_profile url net).error.isSome = true) :
    (fetch_profile url net).badges = [] ∧ (fetch_profile url net).arcade_games = [] := by
  cases net with
  | exn m => exact ⟨rfl, rfl⟩
  | resp status body =>
    by_cases hs : statusRaises status = true
    · simp [fetch_profile, hs]
    · simp [fetch_profile, hs] at h

theorem c8_witness :
    (fetch_profile "https://example.org/p" (.exn "timeout")).badges = [] ∧
      (fetch_profile "https://example.org/p" (.exn "timeout")).arcade_games = [] :=
  c8_fetch_error_empty "https://example.org/p" (.exn "timeout") (by decide)

/-- Claim C9, counterexample: a non-preview run in which no record was
updated performs no write at all, so it is false that every non-preview
run writes the record set back exactly once. -/
theorem c9_counterexample : ¬ writesPerformed false 0 = 1 := by
  decide

/-- Claim C9 (amended): a preview run never writes; a non-preview run
writes exactly once iff at least one record was updated. -/
theorem c9_write_policy_amended (updated : Nat) :
    writesPerformed true updated = 0 ∧
      (writesPerformed false updated = 1 ↔ 0 < updated) := by
  constructor
  · simp [writesPerformed]
  · constructor
    · intro h
      by_contra hu
      simp [writesPerformed, Nat.eq_zero_of_not_pos hu] at h
    · intro h
      simp [writesPerformed, h]

theorem c9_witness : writesPerformed false 3 = 1 :=
  (c9_write_policy_amended 3).2.mpr (by decide)

/-- Claim C10, counterexample: a record whose skill-badge count is the
falsy empty string but whose arcade-game count is 5 is NOT updated by an
error-free outcome carrying one arcade game and no badges, refuting
"any outcome with at least one badge or at least one arcade game
triggers the full update" for records with a falsy count field. -/
theorem c10_counterexample :
    reconcileRecord falsyCountRecord [] ["g1"] = some falsyCountRecord ∧
      applyUpdate falsyCountRecord [] ["g1"] ≠ falsyCountRecord ∧
      isFalsyCount falsyCountRecord.skillBadgeCount = true := by
  refine ⟨by decide, ?_, by decide⟩
  intro h
  have : (applyUpdate falsyCountRecord [] ["g1"]).skillBadgeCount =
      falsyCountRecord.skillBadgeCount := by rw [h]
  simp [applyUpdate, falsyCountRecord] at this

/-- Claim C10 (amended): an absent or falsy stored count is read as 0,
and an error-free outcome with at least one achievement in such a
category (at least one badge when the skill count is falsy, at least one
arcade game when the arcade count is falsy) triggers the full update. -/
theorem c10_falsy_amended (v : Option FieldVal) (r : ProfileRecord)
    (badges arcade_games : List String) :
    (isFalsyCount v = true → pyGetCount v = some 0) ∧
      (isFalsyCount r.skillBadgeCount = true →
        (pyGetCount r.arcadeGameCount).isSome = true → badges ≠ [] →
        reconcileRecord r badges arcade_games =
          some (applyUpdate r badges arcade_games)) ∧
      (isFalsyCount r.arcadeGameCount = true →
        (pyGetCount r.skillBadgeCount).isSome = true → arcade_games ≠ [] →
        reconcileRecord r badges arcade_games =
          some (applyUpdate r badges arcade_games)) := by
  refine ⟨pyGetCount_falsy v, ?_, ?_⟩
  · intro hf hA hne
    obtain ⟨oldA, hA'⟩ := Option.isSome_iff_exists.mp hA
    unfold reconcileRecord
    rw [pyGetCount_falsy _ hf, hA']
    dsimp only
    rw [if_pos]
    exact Or.inl (by exact_mod_cast List.length_pos.mpr hne)
  · intro hf hB hne
    obtain ⟨oldB, hB'⟩ := Option.isSome_iff_exists.mp hB
    unfold reconcileRecord
    rw [pyGetCount_falsy _ hf, hB']
    dsimp only
    rw [if_pos]
    exact Or.inr (by exact_mod_cast List.length_pos.mpr hne)

theorem c10_witness :
    reconcileRecord falsyCountRecord ["b1"] [] =
      some (applyUpdate falsyCountRecord ["b1"] []) :=
  (c10_falsy_amended none falsyCountRecord ["b1"] []).2.1 (by decide) (by decide)
    (by decide)

/-- A document whose only content is a structured profile-badge block
titled with an empty-state message. -/
def negBlockDoc : HtmlDoc := ⟨["no badges earned"], [], [], ""⟩

/-- The DOM view of the plain text "User hasn't earned any badges yet":
no badge blocks, no pattern-matched containers, no anchors. -/
def negTextDoc : HtmlDoc := ⟨[], [], [], "User hasn\x27t earned any badges yet"⟩

/-- Claim C3, counterexample: the structured block scan applies no
negative-phrase filter, so a block title containing "no badges" is
classified and emitted, contradicting "every candidate text examined by
any extraction strategy is discarded when it contains a negative
phrase". -/
theorem c3_counterexample :
    is_negative_phrase "no badges earned" = true ∧
      extract_badges_from_html negBlockDoc =
        ⟨["no badges earned [Skill Badge]"], []⟩ := by
  decide

/-- Claim C3 (amended): the negative-phrase filter discards candidates
in the container-pattern scan, the global link scan and both literal-tag
regex fallbacks (but not in the structured block scan), and the plain
input text "User hasn't earned any badges yet" yields empty badge and
arcade lists. -/
theorem c3_negative_filter_amended :
    (∀ (st : ExtractResult) (el : BElem), is_negative_phrase el.text = true →
      containerStep st el = st) ∧
      (∀ (st : ExtractResult) (a : Anchor), is_negative_phrase a.text = true →
        anchorStep st a = st) ∧
      (∀ (st : ExtractResult) (m : String), is_negative_phrase (pyStripStr m) = true →
        regexBadgeStep st m = st) ∧
      (∀ (st : ExtractResult) (m : String), is_negative_phrase (pyStripStr m) = true →
        regexGameStep st m = st) ∧
      extract_badges_from_html negTextDoc = ⟨[], []⟩ := by
  refine ⟨?_, ?_, ?_, ?_, by decide⟩
  · intro st el h
    by_cases he : el.text = "" <;> simp [containerStep, he, h]
  · intro st a h
    by_cases he : a.text = "" <;> simp [anchorStep, he, h]
  · intro st m h
    simp [regexBadgeStep, h]
  · intro st m h
    simp [regexGameStep, h]

theorem c3_witness :
    containerStep ⟨[], []⟩ ⟨"div", "User has not earned any badges", "/badges/x"⟩ =
      ⟨[], []⟩ :=
  c3_negative_filter_amended.1 ⟨[], []⟩ ⟨"div", "User has not earned any badges", "/badges/x"⟩
    (by decide)

/-- A container whose descendant text mentions "skill badge" but does
not carry a category tag. -/
def untaggedDoc : HtmlDoc := ⟨[], [[⟨"div", "cloud skill badge intro", ""⟩]], [], ""⟩

/-- Claim C6, counterexample: a candidate accepted by the
container-pattern scan and classified as a skill badge is inserted
without the "[Skill Badge]" tag being appended, so not every name those
strategies emit carries its category tag. -/
theorem c6_counterexample :
    extract_badges_from_html untaggedDoc = ⟨["cloud skill badge intro"], []⟩ ∧
      strContains "cloud skill badge intro" "[Skill Badge]" = false := by
  decide

/-- Claim C6 (amended): in the container-pattern scan and the global
link scan, only arcade-classified candidates get the "[Game]" tag
appended when their text lacks it; skill-badge-classified candidates are
inserted exactly as normalized, without a "[Skill Badge]" tag being
appended. -/
theorem c6_tagging_amended :
    (∀ (st : ExtractResult) (el : BElem), el.text ≠ "" →
      is_negative_phrase el.text = false →
      (strContains el.text "[Skill Badge]" || strContains (pyLower el.text) "skill badge" ||
        strContains (if el.name = "a" then el.href else "") "/badges" ||
        strContains (if el.name = "a" then el.href else "") "/quests" ||
        strContains (if el.name = "a" then el.href else "") "/skill") = true →
      is_arcade_game (normTitle el.text) = true →
      strContains (normTitle el.text) "[Game]" = false →
      (normTitle el.text ++ " [Game]") ∉ st.arcade_games →
      containerStep st el =
        { st with arcade_games := st.arcade_games ++ [normTitle el.text ++ " [Game]"] }) ∧
      (∀ (st : ExtractResult) (el : BElem), el.text ≠ "" →
        is_negative_phrase el.text = false →
        (strContains el.text "[Skill Badge]" || strContains (pyLower el.text) "skill badge" ||
          strContains (if el.name = "a" then el.href else "") "/badges" ||
          strContains (if el.name = "a" then el.href else "") "/quests" ||
          strContains (if el.name = "a" then el.href else "") "/skill") = true →
        is_arcade_game (normTitle el.text) = false →
        normTitle el.text ≠ "" → normTitle el.text ∉ st.badges →
        containerStep st el = { st with badges := st.badges ++ [normTitle el.text] }) ∧
      (∀ (st : ExtractResult) (a : Anchor), a.text ≠ "" →
        is_negative_phrase a.text = false →
        (strContains a.href "/badges" || strContains (pyLower a.href) "badge" ||
          strContains a.href "/quests") = true →
        is_arcade_game (normTitle a.text) = true →
        strContains (normTitle a.text) "[Game]" = false →
        (normTitle a.text ++ " [Game]") ∉ st.arcade_games →
        anchorStep st a =
          { st with arcade_games := st.arcade_games ++ [normTitle a.text ++ " [Game]"] }) ∧
      (∀ (st : ExtractResult) (a : Anchor), a.text ≠ "" →
        is_negative_phrase a.text = false →
        (strContains a.href "/badges" || strContains (pyLower a.href) "badge" ||
          strContains a.href "/quests") = true →
        is_arcade_game (normTitle a.text) = false →
        normTitle a.text ≠ "" → normTitle a.text ∉ st.badges →
        anchorStep st a = { st with badges := st.badges ++ [normTitle a.text] }) := by
  refine ⟨?_, ?_, ?_, ?_⟩
  · intro st el hne hneg hacc harc htag hmem
    simp [containerStep, hne, hneg, hacc, harc, htag, hmem]
  · intro st el hne hneg hacc harc hbne hmem
    simp [containerStep, hne, hneg, hacc, harc, hbne, hmem]
  · intro st a hne hneg hacc harc htag hmem
    simp [anchorStep, hne, hneg, hacc, harc, htag, hmem]
  · intro st a hne hneg hacc harc hbne hmem
    simp [anchorStep, hne, hneg, hacc, harc, hbne, hmem]

theorem c6_witness :
    containerStep ⟨[], []⟩ ⟨"div", "cloud skill badge intro", ""⟩ =
      ⟨["cloud skill badge intro"], []⟩ :=
  c6_tagging_amended.2.1 ⟨[], []⟩ ⟨"div", "cloud skill badge intro", ""⟩
    (by decide) (by decide) (by decide) (by decide) (by decide) (by decide)

/-! ## Characterization of the arcade-game classifier (claim C7) -/

/-- Declarative reading of the match `\blevel\s*\d+\b` at the head of
`cs`: the literal token `level`, then whitespace, then a non-empty digit
run, then the end or a non-word character. -/
def LevelHere (cs : List Char) : Prop :=
  ∃ w d b, cs = levelTok ++ (w ++ (d ++ b)) ∧
    (∀ c ∈ w, isSpaceChar c = true) ∧
    d ≠ [] ∧ (∀ c ∈ d, c.isDigit = true) ∧
    (b = [] ∨ ∃ c b2, b = c :: b2 ∧ isWordChar c = false)

/-- Declarative reading of the spec's classification rule: the
lowercased title contains a "Level" token immediately followed by a
number as a whole word. -/
def ContainsLevelNum (t : String) : Prop :=
  ∃ a b, (pyLower t).toList = a ++ b ∧
    (a = [] ∨ ∃ a2 c, a = a2 ++ [c] ∧ isWordChar c = false) ∧
    LevelHere b

theorem leadsWith_iff (n : List Char) : ∀ h, leadsWith n h = true ↔ ∃ t, h = n ++ t := by
  induction n with
  | nil => intro h; simp [leadsWith]
  | cons a as ih =>
    intro h
    cases h with
    | nil =>
      simp only [leadsWith, Bool.false_eq_true, false_iff]
      rintro ⟨t, ht⟩
      exact absurd ht (by simp)
    | cons b bs =>
      simp only [leadsWith, Bool.and_eq_true, decide_eq_true_eq, ih]
      constructor
      · rintro ⟨rfl, t, rfl⟩
        exact ⟨t, rfl⟩
      · rintro ⟨t, ht⟩
        rw [List.cons_append] at ht
        injection ht with h1 h2
        exact ⟨h1.symm, t, h2⟩

theorem dropWhile_append_all {p : Char → Bool} (w : List Char) (x : List Char)
    (hw : ∀ c ∈ w, p c = true) : (w ++ x).dropWhile p = x.dropWhile p := by
  induction w with
  | nil => rfl
  | cons c cs ih =>
    rw [List.cons_append, List.dropWhile_cons, if_pos (hw c (by simp))]
    exact ih fun c hc => hw c (by simp [hc])

theorem dropWhile_cons_false {p : Char → Bool} (c : Char) (x : List Char)
    (hc : p c = false) : (c :: x).dropWhile p = c :: x := by
  simp [List.dropWhile_cons, hc]

theorem digit_isWordChar (c : Char) (h : c.isDigit = true) : isWordChar c = true := by
  simp [isWordChar, Char.isAlphanum, h]

theorem digit_not_space (c : Char) (h : c.isDigit = true) : isSpaceChar c = false := by
  by_contra hs
  rw [Bool.not_eq_false] at hs
  simp only [isSpaceChar, Bool.or_eq_true, decide_eq_true_eq] at hs
  rcases hs with ((((rfl | rfl) | rfl) | rfl) | rfl) | rfl <;> exact absurd h (by decide)

theorem levelNumHere_iff (cs : List Char) : levelNumHere cs = true ↔ LevelHere cs := by
  constructor
  · intro h
    unfold levelNumHere at h
    rw [Bool.and_eq_true] at h
    obtain ⟨h1, h2⟩ := h
    obtain ⟨t, rfl⟩ := (leadsWith_iff levelTok cs).mp h1
    have hdrop5 : (levelTok ++ t).drop 5 = t := List.drop_left levelTok t
    rw [hdrop5] at h2
    cases hr : t.dropWhile isSpaceChar with
    | nil => rw [hr] at h2; simp at h2
    | cons d rest2 =>
      rw [hr] at h2
      dsimp only at h2
      rw [Bool.and_eq_true] at h2
      obtain ⟨hd, h3⟩ := h2
      refine ⟨t.takeWhile isSpaceChar, (d :: rest2).takeWhile Char.isDigit,
        (d :: rest2).dropWhile Char.isDigit, ?_, ?_, ?_, ?_, ?_⟩
      · rw [List.takeWhile_append_dropWhile, ← hr, List.takeWhile_append_dropWhile]
      · exact fun c hc => List.mem_takeWhile_imp hc
      · rw [List.takeWhile_cons, if_pos hd]
        exact List.cons_ne_nil _ _
      · exact fun c hc => List.mem_takeWhile_imp hc
      · cases hbb : (d :: rest2).dropWhile Char.isDigit with
        | nil => exact Or.inl rfl
        | cons c b2 =>
          rw [hbb] at h3
          dsimp only at h3
          exact Or.inr ⟨c, b2, rfl, by simpa using h3⟩
  · rintro ⟨w, d, b, rfl, hw, hdne, hd, hb⟩
    obtain ⟨d0, d', rfl⟩ : ∃ d0 d', d = d0 :: d' := by
      cases d with
      | nil => exact absurd rfl hdne
      | cons d0 d' => exact ⟨d0, d', rfl⟩
    have hd0 : d0.isDigit = true := hd d0 (by simp)
    unfold levelNumHere
    rw [Bool.and_eq_true]
    refine ⟨(leadsWith_iff levelTok _).mpr ⟨_, rfl⟩, ?_⟩
    have hdrop5 : (levelTok ++ (w ++ (d0 :: d' ++ b))).drop 5 = w ++ (d0 :: d' ++ b) :=
      List.drop_left levelTok _
    rw [hdrop5, dropWhile_append_all w _ hw, List.cons_append,
      dropWhile_cons_false _ _ (digit_not_space d0 hd0)]
    dsimp only
    rw [Bool.and_eq_true]
    refine ⟨hd0, ?_⟩
    have hdigits : ∀ c ∈ d0 :: d', Char.isDigit c = true := hd
    rw [show d0 :: (d' ++ b) = (d0 :: d') ++ b from rfl,
      dropWhile_append_all (d0 :: d') b hdigits]
    rcases hb with rfl | ⟨c, b2, rfl, hc⟩
    · rfl
    · have hcd : c.isDigit = false := by
        by_contra hcc
        rw [Bool.not_eq_false] at hcc
        rw [digit_isWordChar c hcc] at hc
        exact absurd hc (by decide)
      rw [dropWhile_cons_false _ _ hcd]
      dsimp only
      simp [hc]

theorem scanLevel_iff (cs : List Char) : ∀ atB : Bool,
    scanLevel atB cs = true ↔
      ∃ a b, cs = a ++ b ∧
        ((a = [] ∧ atB = true) ∨ ∃ a2 c, a = a2 ++ [c] ∧ isWordChar c = false) ∧
        levelNumHere b = true := by
  induction cs with
  | nil =>
    intro atB
    constructor
    · intro h; simp [scanLevel] at h
    · rintro ⟨a, b, hab, hcond, hl⟩
      obtain ⟨rfl, rfl⟩ := List.append_eq_nil.mp hab.symm
      exact absurd hl (by decide)
  | cons c rest ih =>
    intro atB
    simp only [scanLevel, Bool.or_eq_true, Bool.and_eq_true]
    constructor
    · rintro (⟨hatB, hlnh⟩ | hrest)
      · exact ⟨[], c :: rest, rfl, Or.inl ⟨rfl, hatB⟩, hlnh⟩
      · obtain ⟨a, b, hab, hcond, hl⟩ := (ih (!isWordChar c)).mp hrest
        refine ⟨c :: a, b, by rw [hab, List.cons_append], ?_, hl⟩
        rcases hcond with ⟨rfl, hB⟩ | ⟨a2, cc, rfl, hcc⟩
        · exact Or.inr ⟨[], c, rfl, by simpa using hB⟩
        · exact Or.inr ⟨c :: a2, cc, rfl, hcc⟩
    · rintro ⟨a, b, hab, hcond, hl⟩
      cases a with
      | nil =>
        rcases hcond with ⟨-, hatB⟩ | ⟨a2, cc, ha, hcc⟩
        · have hb : b = c :: rest := by simpa using hab.symm
          exact Or.inl ⟨hatB, hb ▸ hl⟩
        · exact absurd ha (by simp)
      | cons c' a' =>
        rw [List.cons_append] at hab
        injection hab with h1 h2
        subst h1
        right
        apply (ih (!isWordChar c)).mpr
        refine ⟨a', b, h2, ?_, hl⟩
        rcases hcond with ⟨hnil, -⟩ | ⟨a2, cc, ha, hcc⟩
        · exact absurd hnil (by simp)
        · cases a2 with
          | nil =>
            obtain ⟨rfl, rfl⟩ : cc = c ∧ a' = [] := by
              have := ha.symm
              simp only [List.nil_append] at this
              injection this with hx hy
              exact ⟨hx, hy.symm⟩
            exact Or.inl ⟨rfl, by simp [hcc]⟩
          | cons x a2' =>
            rw [List.cons_append] at ha
            injection ha with hx hy
            exact Or.inr ⟨a2', cc, hy, hcc⟩

/-- Claim C7: a title is classified as an arcade game iff its
lowercasing contains a "Level" token immediately followed by a number as
a whole word; "Level 3: Generative AI Leader" is an arcade game and
"Develop Gen AI Apps with Gemini and Streamlit" is a skill badge. -/
theorem c7_arcade_classification :
    (∀ t : String, is_arcade_game t = true ↔ ContainsLevelNum t) ∧
      is_arcade_game "Level 3: Generative AI Leader" = true ∧
      is_arcade_game "Develop Gen AI Apps with Gemini and Streamlit" = false := by
  refine ⟨?_, by decide, by decide⟩
  intro t
  unfold is_arcade_game ContainsLevelNum
  rw [scanLevel_iff]
  constructor
  · rintro ⟨a, b, hab, hcond, hl⟩
    refine ⟨a, b, hab, ?_, (levelNumHere_iff b).mp hl⟩
    rcases hcond with ⟨h, -⟩ | h
    · exact Or.inl h
    · exact Or.inr h
  · rintro ⟨a, b, hab, hcond, hl⟩
    refine ⟨a, b, hab, ?_, (levelNumHere_iff b).mpr hl⟩
    rcases hcond with h | h
    · exact Or.inl ⟨h, rfl⟩
    · exact Or.inr h

theorem c7_witness : ContainsLevelNum "Level 3: Generative AI Leader" :=
  (c7_arcade_classification.1 "Level 3: Generative AI Leader").mp (by decide)

end ScrapeProfiles
